import Mathlib

/-!
Shallow embedding of the platonic_garden runtime coordination core:
the shared-state store (src/utils.py), the sensor acquisition loop
(src/read_sensor.py), the animation scheduler (src/main.py) and the
wireless control plane (src/wlan_main.py), together with proofs of the
specified properties.
-/

namespace PlatonicGarden

/-! ## Constants from src/read_sensor.py -/

def TEMP_RISE_THRESHOLD : Int := 100
def LOCK_MESSAGE_COOLDOWN_MS : Int := 5000
def TEMP_HISTORY_WINDOW_MS : Int := 5000
def DISTANCE_OFFSET : Int := 50
def TEMPRATURE_CHANGE_THRESHOLD : Int := 1000
def TEMP_DELTA_UP : Int := 10
def TEMP_DELTA_DOWN : Int := 2

/-- MAX_TEMP_HISTORY_LENGTH = int(TEMP_HISTORY_WINDOW_MS / (SENSOR_LOOP_DELAY_S * 1000))
with SENSOR_LOOP_DELAY_S = 0.1, hence 5000 / 100 = 50. -/
def MAX_TEMP_HISTORY_LENGTH : Nat := 50

/-! ## Per-cycle sensor read (src/read_sensor.py, read_sensor loop body)

    distance = max(0, sensor_tof.ping() - DISTANCE_OFFSET)
    sensor_temp_array[i] = sensor_temp_array[i] + TEMP_DELTA_UP if distance < TEMPRATURE_CHANGE_THRESHOLD
                           else sensor_temp_array[i] - TEMP_DELTA_DOWN
    sensor_temp_array[i] = min(max(0, sensor_temp_array[i]), 255)
-/

/-- One successful read of one sensor: raw ping value and current temperature
accumulator in, published distance and new accumulator out. -/
def readSensorCycle (raw : Int) (t : Int) : Int × Int :=
  let distance := max 0 (raw - DISTANCE_OFFSET)
  let t1 := if distance < TEMPRATURE_CHANGE_THRESHOLD then t + TEMP_DELTA_UP
            else t - TEMP_DELTA_DOWN
  let t2 := min (max 0 t1) 255
  (distance, t2)

/-! ## read_until_null_terminator (src/utils.py)

The stream is a finite byte sequence; reader.read(1) yields the next byte,
or an empty bytes object once the stream is exhausted.  On an empty read,
byte == b"\x00" is false and byte[0] raises IndexError; the embedding
returns none for that error. -/

def read_until_null_terminator : List Nat → Option (List Nat)
  | [] => none
  | b :: rest =>
    if b = 0 then some []
    else (read_until_null_terminator rest).map (fun l => b :: l)

/-! ## Values held by the StateStore (JSON-like, as produced by the Python code) -/

inductive Val where
  | null : Val
  | int : Int → Val
  | str : String → Val
  | list : List Val → Val
  | obj : List (String × Val) → Val
deriving Repr

/-- A Python dict as an insertion-ordered association list (src/utils.py,
SharedState._data).  Updating an existing key keeps its position; a new key is
appended, matching Python dict semantics. -/
abbrev Store := List (String × Val)

/-- self._data[key] = value for a dict. -/
def storeSet (st : Store) (k : String) (v : Val) : Store :=
  if st.any (fun p => p.1 = k) then
    st.map (fun p => if p.1 = k then (k, v) else p)
  else st ++ [(k, v)]

/-- dict lookup: d.get(key). -/
def storeGet (st : Store) (k : String) : Option Val :=
  (st.find? (fun p => p.1 = k)).map (fun p => p.2)

/-! ## SharedState (src/utils.py)

    async def update(self, key, value):
        if self._data is None: self._data = {}
        self._data[key] = value
    async def get(self):
        return deepcopy(self._data)

Neither method suspends between reading and writing _data (no await inside the
body), so under cooperative scheduling each call is one atomic step; the
embedding therefore models update as a single transition and get as returning
the current value (the deepcopy makes the returned snapshot an independent
value, which Lean values are by construction). -/

/-- SharedState.update on the optional data field. -/
def sharedUpdate (d : Option Store) (k : String) (v : Val) : Option Store :=
  some (storeSet (d.getD []) k v)

/-- A client operation on the store: one full update call or one get call.
Any interleaving of operations from different tasks is a list of these, since
each call runs without an internal suspension point. -/
inductive Op where
  | update : String → Val → Op
  | get : Op

/-- The store contents after running a list of operations. -/
def runStore (d : Option Store) : List Op → Option Store
  | [] => d
  | Op.update k v :: rest => runStore (sharedUpdate d k v) rest
  | Op.get :: rest => runStore d rest

/-- The list of snapshots returned by the get calls in an operation list,
in order. -/
def getResults (d : Option Store) : List Op → List (Option Store)
  | [] => []
  | Op.update k v :: rest => getResults (sharedUpdate d k v) rest
  | Op.get :: rest => d :: getResults d rest

/-! ## JSON encoding (json.dumps with its default separators) -/

mutual

/-- json.dumps of a value, with the default separators of the Python json
module (", " between items, ": " after a key).  Keys appear in dict insertion
order, as in CPython. -/
def Val.dumps : Val → String
  | .null => "null"
  | .int n => toString n
  | .str s => "\"" ++ s ++ "\""
  | .list l => "[" ++ dumpsItems l ++ "]"
  | .obj l => "\x7b" ++ dumpsPairs l ++ "\x7d"

def dumpsItems : List Val → String
  | [] => ""
  | [v] => Val.dumps v
  | v :: w :: rest => Val.dumps v ++ ", " ++ dumpsItems (w :: rest)

def dumpsPairs : List (String × Val) → String
  | [] => ""
  | [(k, v)] => "\"" ++ k ++ "\": " ++ Val.dumps v
  | (k, v) :: q :: rest =>
    "\"" ++ k ++ "\": " ++ Val.dumps v ++ ", " ++ dumpsPairs (q :: rest)

end

/-! ## JSON decoding (the client-side json.loads of the protocol round-trip) -/

def lbraceChar : Char := Char.ofNat 123
def rbraceChar : Char := Char.ofNat 125

def skipWs : List Char → List Char
  | [] => []
  | c :: rest =>
    if c = ' ' ∨ c = '\n' ∨ c = '\t' ∨ c = '\r' then skipWs rest else c :: rest

/-- Reads the characters of a string literal up to the closing quote
(the payloads of this protocol contain no escape sequences). -/
def pStringChars : List Char → Option (String × List Char)
  | [] => none
  | c :: rest =>
    if c = '"' then some ("", rest)
    else (pStringChars rest).map (fun p => (String.singleton c ++ p.1, p.2))

def takeDigits : List Char → List Char × List Char
  | [] => ([], [])
  | c :: rest =>
    if c.isDigit then
      let p := takeDigits rest
      (c :: p.1, p.2)
    else ([], c :: rest)

def digitsVal (ds : List Char) : Nat :=
  ds.foldl (fun a c => a * 10 + (c.toNat - 48)) 0

mutual

/-- Fuel-bounded JSON value parser over a character stream; returns the value
and the remaining characters. -/
def pVal : Nat → List Char → Option (Val × List Char)
  | 0, _ => none
  | fuel + 1, cs =>
    match skipWs cs with
    | [] => none
    | c :: rest =>
      if c = 'n' then
        match rest with
        | 'u' :: 'l' :: 'l' :: r => some (Val.null, r)
        | _ => none
      else if c = '"' then
        (pStringChars rest).map (fun p => (Val.str p.1, p.2))
      else if c = '-' then
        let p := takeDigits rest
        if p.1.isEmpty then none
        else some (Val.int (-(digitsVal p.1 : Int)), p.2)
      else if c.isDigit then
        let p := takeDigits (c :: rest)
        some (Val.int (digitsVal p.1), p.2)
      else if c = '[' then
        match skipWs rest with
        | ']' :: r => some (Val.list [], r)
        | cs2 => (pItems fuel cs2).map (fun p => (Val.list p.1, p.2))
      else if c = lbraceChar then
        match skipWs rest with
        | c2 :: r2 =>
          if c2 = rbraceChar then some (Val.obj [], r2)
          else (pPairs fuel (c2 :: r2)).map (fun p => (Val.obj p.1, p.2))
        | [] => none
      else none

/-- One or more comma-separated array items followed by the closing bracket. -/
def pItems : Nat → List Char → Option (List Val × List Char)
  | 0, _ => none
  | fuel + 1, cs =>
    match pVal fuel cs with
    | none => none
    | some (v, r) =>
      match skipWs r with
      | ',' :: r2 => (pItems fuel r2).map (fun p => (v :: p.1, p.2))
      | ']' :: r2 => some ([v], r2)
      | _ => none

/-- One or more comma-separated key/value pairs followed by the closing
brace. -/
def pPairs : Nat → List Char → Option (List (String × Val) × List Char)
  | 0, _ => none
  | fuel + 1, cs =>
    match skipWs cs with
    | '"' :: r =>
      (match pStringChars r with
      | none => none
      | some (k, r2) =>
        match skipWs r2 with
        | ':' :: r3 =>
          (match pVal fuel r3 with
          | none => none
          | some (v, r4) =>
            match skipWs r4 with
            | ',' :: r5 => (pPairs fuel r5).map (fun p => ((k, v) :: p.1, p.2))
            | c :: r5 => if c = rbraceChar then some ([(k, v)], r5) else none
            | [] => none)
        | _ => none)
    | _ => none

end

/-- json.loads: parse the whole string (trailing whitespace allowed). -/
def jsonLoads (s : String) : Option Val :=
  match pVal (s.length + 1) s.toList with
  | some (v, r) => if (skipWs r).isEmpty then some v else none
  | none => none

/-! ## The wireless control plane (src/wlan_main.py) -/

/-- UTF-8 bytes of a string; every character of this protocol is ASCII, so
each character is one byte. -/
def strBytes (s : String) : List Nat := s.toList.map Char.toNat

def GET_ANIMATION : List Nat := strBytes "GET_ANIMATION"
def LOCK_ANIMATION : List Nat := strBytes "LOCK_ANIMATION"

/-- json.dumps applied to the optional _data dict (json.dumps(None) is
"null"). -/
def dumpsState (d : Option Store) : String :=
  match d with
  | none => "null"
  | some st => Val.dumps (Val.obj st)

/-- provide_animation: reads the live map with get_unsafe, JSON-encodes it and
writes the payload followed by a zero terminator.  Returns the (unchanged)
store and the written bytes. -/
def provide_animation (d : Option Store) : Option Store × List Nat :=
  (d, strBytes (dumpsState d) ++ [0])

/-- A coroutine object created by calling an async method without awaiting
it: it records the call but performs nothing until awaited. -/
structure PendingCoroutine where
  key : String
  value : Val

/-- What awaiting the pending update coroutine would do to the store. -/
def PendingCoroutine.awaited (c : PendingCoroutine) (d : Option Store) :
    Option Store :=
  sharedUpdate d c.key c.value

/-- lock_animation (src/wlan_main.py line 33):
    state.update("last_locked_animation", time.time())
is an async call that is not awaited — the coroutine object is created and
immediately discarded, so the store is left unmodified; only the
acknowledgment b"LOCKED\x00" is written. -/
def lock_animation (d : Option Store) (now : Int) : Option Store × List Nat :=
  let _unawaited : PendingCoroutine := ⟨"last_locked_animation", Val.int now⟩
  (d, strBytes "LOCKED" ++ [0])

/-- handle_client dispatch on the exact request bytes (RESPONSES table), with
the unknown-request reply. -/
def handleRequest (req : List Nat) (d : Option Store) (now : Int) :
    Option Store × List Nat :=
  if req = GET_ANIMATION then provide_animation d
  else if req = LOCK_ANIMATION then lock_animation d now
  else (d, strBytes "UNKNOWN_REQUEST" ++ [0])

/-- Initial state of the wlan_main peer (wlan_main.main). -/
def wlanInitialStore : Store :=
  [("animation", Val.null), ("last_locked_animation", Val.null)]

/-- The StateStore of the protocol round-trip scenario. -/
def snapshotC8 : Store :=
  [("animation", Val.str "rainbow"),
   ("distances", Val.list [Val.list [Val.int 10, Val.int 5]])]

/-! ## AnimationSelector (src/wlan_main.py, choose_animation)

    new_animation = random.choice(ANIMATIONS)
    while new_animation == animation:
        new_animation = random.choice(ANIMATIONS)
    animation = new_animation
    await state.update("animation", animation)

random.choice is modelled by a supply of random indices; random.choice(l)
returns l[i % len(l)] for the next index i of the supply. -/

def choiceAt (registry : List String) (i : Nat) : String :=
  registry.getD (i % registry.length) ""

/-- The rejection-sampling loop of choose_animation: draw choices until one
differs from the currently selected animation.  If the finite supply of
draws runs out before a different name appears the loop is still spinning,
so nothing is published (none). -/
def pickNew (registry : List String) (prev : Option String) :
    List Nat → Option String
  | [] => none
  | i :: rest =>
    let c := choiceAt registry i
    if some c = prev then pickNew registry prev rest else some c

/-- The sequence of names choose_animation publishes to the StateStore key
"animation", one rotation round per entry of the draw supply. -/
def choosePublishes (registry : List String) :
    Option String → List (List Nat) → List String
  | _, [] => []
  | prev, cs :: rounds =>
    match pickNew registry prev cs with
    | none => []
    | some c => c :: choosePublishes registry (some c) rounds

theorem choiceAt_mem (registry : List String) (i : Nat)
    (h : 0 < registry.length) : choiceAt registry i ∈ registry := by
  have hlt : i % registry.length < registry.length := Nat.mod_lt _ h
  unfold choiceAt
  rw [List.getD_eq_getElem registry "" hlt]
  exact List.getElem_mem hlt

theorem pickNew_spec (registry : List String) (prev : Option String)
    (cs : List Nat) (c : String) (h : 0 < registry.length)
    (hp : pickNew registry prev cs = some c) :
    c ∈ registry ∧ some c ≠ prev := by
  induction cs with
  | nil => simp [pickNew] at hp
  | cons i rest ih =>
    simp only [pickNew] at hp
    split at hp
    · exact ih hp
    · rename_i hne
      cases hp
      exact ⟨choiceAt_mem registry i h, hne⟩

theorem choosePublishes_spec (registry : List String)
    (h : 0 < registry.length) :
    ∀ (rounds : List (List Nat)) (prev : Option String),
      (∀ x ∈ choosePublishes registry prev rounds, x ∈ registry) ∧
      (choosePublishes registry prev rounds).Chain' (fun a b => a ≠ b) ∧
      (∀ c, (choosePublishes registry prev rounds).head? = some c →
        some c ≠ prev) := by
  intro rounds
  induction rounds with
  | nil => intro prev; simp [choosePublishes]
  | cons cs rest ih =>
    intro prev
    simp only [choosePublishes]
    cases hp : pickNew registry prev cs with
    | none => simp
    | some c =>
      obtain ⟨hmem, hne⟩ := pickNew_spec registry prev cs c h hp
      obtain ⟨ihmem, ihchain, ihhead⟩ := ih (some c)
      refine ⟨?_, ?_, ?_⟩
      · intro x hx
        rcases List.mem_cons.mp hx with rfl | hx
        · exact hmem
        · exact ihmem x hx
      · rw [List.chain'_cons']
        refine ⟨?_, ihchain⟩
        intro y hy
        have := ihhead y hy
        intro hcy
        exact this (by rw [hcy])
      · intro c0 hc0
        simp only [List.head?_cons, Option.some.injEq] at hc0
        subst hc0
        exact hne

/-! ## Spike detection and lock-message cooldown (src/read_sensor.py)

Per cycle, for each sensor slot: append (current_loop_time, temp) to that
sensor's bounded deque, then flag a spike when the current temperature
exceeds any sample still in the window by more than TEMP_RISE_THRESHOLD.
If any sensor spiked and more than LOCK_MESSAGE_COOLDOWN_MS has elapsed
since last_lock_sent_time, send LOCK_ANIMATION (fire-and-forget) and set
last_lock_sent_time to the current time. -/

structure LockState where
  hists : List (List (Int × Int))
  lastLock : Int

/-- deque(..., maxlen=cap): appending to a full deque evicts from the
left. -/
def dequeAppend (cap : Nat) (h : List (Int × Int)) (x : Int × Int) :
    List (Int × Int) :=
  let h2 := h ++ [x]
  if cap < h2.length then h2.drop (h2.length - cap) else h2

/-- current_temp_for_sensor - recorded_temp > TEMP_RISE_THRESHOLD for some
sample of the trailing window (the break in the source only cuts the scan
short; the sent decision depends only on existence). -/
def sensorSpike (current : Int) (hist : List (Int × Int)) : Bool :=
  hist.any (fun p => decide (TEMP_RISE_THRESHOLD < current - p.2))

/-- All per-sensor histories after this cycle's append. -/
def histsAfter (s : LockState) (t : Int) (temps : List Int) :
    List (List (Int × Int)) :=
  List.zipWith (fun temp h => dequeAppend MAX_TEMP_HISTORY_LENGTH h (t, temp))
    temps s.hists

/-- lock_animation_triggered_this_cycle: some sensor shows a rise against its
just-updated window. -/
def cycleSpike (s : LockState) (t : Int) (temps : List Int) : Bool :=
  (List.zipWith (fun temp h => sensorSpike temp h) temps
    (histsAfter s t temps)).any id

/-- One cycle of the temperature-rise / lock-message logic; returns the new
state and whether LOCK_ANIMATION was sent this cycle. -/
def lockCycle (s : LockState) (t : Int) (temps : List Int) :
    LockState × Bool :=
  if cycleSpike s t temps && decide (LOCK_MESSAGE_COOLDOWN_MS < t - s.lastLock)
  then ({ hists := histsAfter s t temps, lastLock := t }, true)
  else ({ hists := histsAfter s t temps, lastLock := s.lastLock }, false)

/-- The per-cycle sent flags over a run; each cycle carries its
current_loop_time and the temperature accumulator values. -/
def lockRun (s : LockState) : List (Int × List Int) → List Bool
  | [] => []
  | c :: rest =>
    let r := lockCycle s c.1 c.2
    r.2 :: lockRun r.1 rest

/-- Initial state in read_sensor: empty histories for the five sensor slots
and last_lock_sent_time set LOCK_MESSAGE_COOLDOWN_MS + 1 in the past so the
first spike may send immediately. -/
def initLockState (t0 : Int) : LockState :=
  { hists := List.replicate 5 [], lastLock := t0 - (LOCK_MESSAGE_COOLDOWN_MS + 1) }

theorem lockCycle_sent_lt (s : LockState) (t : Int) (temps : List Int)
    (h : (lockCycle s t temps).2 = true) :
    LOCK_MESSAGE_COOLDOWN_MS < t - s.lastLock := by
  unfold lockCycle at h
  split at h
  · rename_i hc
    exact of_decide_eq_true (Bool.and_elim_right hc)
  · simp at h

theorem lockCycle_lastLock_cases (s : LockState) (t : Int) (temps : List Int) :
    (lockCycle s t temps).1.lastLock = s.lastLock ∨
    ((lockCycle s t temps).2 = true ∧ (lockCycle s t temps).1.lastLock = t) := by
  unfold lockCycle
  split
  · right; exact ⟨rfl, rfl⟩
  · left; rfl

/-- If a send happens at position j of a run started with lastLock at least b,
then the send time exceeds b by more than the cooldown. -/
theorem lockRun_send_gap (cycles : List (Int × List Int)) :
    ∀ (s : LockState) (b : Int), b ≤ s.lastLock →
    ∀ (j : Nat) (cj : Int × List Int), cycles[j]? = some cj →
      (lockRun s cycles)[j]? = some true →
      LOCK_MESSAGE_COOLDOWN_MS < cj.1 - b := by
  induction cycles with
  | nil => intro s b _ j cj hcj _; simp at hcj
  | cons c rest ih =>
    intro s b hb j cj hcj hsent
    match j with
    | 0 =>
      simp only [List.getElem?_cons_zero, Option.some.injEq] at hcj
      subst hcj
      simp only [lockRun, List.getElem?_cons_zero, Option.some.injEq] at hsent
      have := lockCycle_sent_lt s c.1 c.2 hsent
      omega
    | Nat.succ j0 =>
      simp only [List.getElem?_cons_succ] at hcj
      simp only [lockRun, List.getElem?_cons_succ] at hsent
      refine ih (lockCycle s c.1 c.2).1 b ?_ j0 cj hcj hsent
      rcases lockCycle_lastLock_cases s c.1 c.2 with heq | ⟨hs, heq⟩
      · omega
      · have := lockCycle_sent_lt s c.1 c.2 hs
        have hcool : (0 : Int) < LOCK_MESSAGE_COOLDOWN_MS := by decide
        omega

theorem lockCycle_sent_lastLock (s : LockState) (t : Int) (temps : List Int)
    (h : (lockCycle s t temps).2 = true) :
    (lockCycle s t temps).1.lastLock = t := by
  unfold lockCycle at h ⊢
  split at h
  · simp_all [lockCycle]
  · simp at h

theorem lockRun_sends_separated (cycles : List (Int × List Int)) :
    ∀ (s : LockState) (i j : Nat) (ci cj : Int × List Int), i < j →
      cycles[i]? = some ci → cycles[j]? = some cj →
      (lockRun s cycles)[i]? = some true →
      (lockRun s cycles)[j]? = some true →
      LOCK_MESSAGE_COOLDOWN_MS < cj.1 - ci.1 := by
  induction cycles with
  | nil => intro s i j ci cj _ hci _ _ _; simp at hci
  | cons c rest ih =>
    intro s i j ci cj hij hci hcj hsi hsj
    cases j with
    | zero => omega
    | succ j0 =>
      cases i with
      | zero =>
        simp only [List.getElem?_cons_zero, Option.some.injEq] at hci
        subst hci
        simp only [lockRun, List.getElem?_cons_zero, Option.some.injEq] at hsi
        simp only [List.getElem?_cons_succ] at hcj
        simp only [lockRun, List.getElem?_cons_succ] at hsj
        have hll := lockCycle_sent_lastLock s c.1 c.2 hsi
        exact lockRun_send_gap rest (lockCycle s c.1 c.2).1 c.1 (by omega)
          j0 cj hcj hsj
      | succ i0 =>
        simp only [List.getElem?_cons_succ] at hci hcj
        simp only [lockRun, List.getElem?_cons_succ] at hsi hsj
        exact ih (lockCycle s c.1 c.2).1 i0 j0 ci cj (by omega) hci hcj hsi hsj

/-! ## AnimationScheduler (src/main.py, run_animations)

Animation tasks are abstract: a task is named by its animation and carries a
fresh stop event; per the animation contract, a task loops until its stop
event is set, so awaiting a task completes only after its stop event has been
signalled.  Events record what the scheduler does, in order. -/

inductive SchedEvent where
  | startTask : String → Nat → SchedEvent
  | setStop : Nat → SchedEvent
  | awaitTask : Nat → SchedEvent
  | errorPattern : SchedEvent
deriving DecidableEq, Repr

structure SchedState where
  current : String
  taskEv : Nat
  nextEv : Nat
deriving DecidableEq, Repr

/-- One poll iteration of the normal-operation loop:

    new_animation = (await state.get()).get("animation")
    if new_animation is not None:
        if new_animation != current_animation:
            current_animation = new_animation
            stop_event.set()
            await asyncio.gather(task)
            task, stop_event = await start_animation(new_animation)

start_animation looks the name up in the registry dict; an unregistered name
raises KeyError there, which the surrounding try catches after the old task
was already stopped and awaited, running error_animation instead of starting
a replacement. -/
def pollStep (registry : List String) (s : SchedState)
    (newAnim : Option String) : SchedState × List SchedEvent :=
  match newAnim with
  | none => (s, [])
  | some n =>
    if n = s.current then (s, [])
    else if n ∈ registry then
      ({ current := n, taskEv := s.nextEv, nextEv := s.nextEv + 1 },
       [SchedEvent.setStop s.taskEv, SchedEvent.awaitTask s.taskEv,
        SchedEvent.startTask n s.nextEv])
    else
      ({ s with current := n },
       [SchedEvent.setStop s.taskEv, SchedEvent.awaitTask s.taskEv,
        SchedEvent.errorPattern])

/-- The events of the polling loop over a sequence of observed values of the
StateStore key "animation". -/
def pollRun (registry : List String) (s : SchedState) :
    List (Option String) → List SchedEvent
  | [] => []
  | p :: rest =>
    let r := pollStep registry s p
    r.2 ++ pollRun registry r.1 rest

/-- Normal operation: start the first registered animation, then poll. -/
def normalTrace (registry : List String) (startEv : Nat)
    (polls : List (Option String)) : List SchedEvent :=
  SchedEvent.startTask (registry.headD "") startEv ::
    pollRun registry
      { current := registry.headD "", taskEv := startEv, nextEv := startEv + 1 }
      polls

/-- run_animations: if the forced-animation marker file exists (carrying an
animation name), start that animation and await its task — without ever
setting its stop event — then fall through to normal operation. -/
def runAnimationsTrace (marker : Option String) (registry : List String)
    (polls : List (Option String)) : List SchedEvent :=
  match marker with
  | none => normalTrace registry 0 polls
  | some name =>
    SchedEvent.startTask name 0 :: SchedEvent.awaitTask 0 ::
      normalTrace registry 1 polls

/-- Cooperative-cancellation semantics: an animation task exits only after its
stop event is set, so awaiting a task whose stop event was never signalled
suspends forever; the events after such an await never happen.  executedAux
keeps events up to (and excluding) the first await of an unstopped task. -/
def executedAux (stopped : List Nat) : List SchedEvent → List SchedEvent
  | [] => []
  | SchedEvent.awaitTask ev :: rest =>
    if ev ∈ stopped then SchedEvent.awaitTask ev :: executedAux stopped rest
    else []
  | SchedEvent.setStop ev :: rest =>
    SchedEvent.setStop ev :: executedAux (ev :: stopped) rest
  | e :: rest => e :: executedAux stopped rest

/-- The events the scheduler actually performs. -/
def executed (tr : List SchedEvent) : List SchedEvent := executedAux [] tr

/-- Fold step for the set of tasks that are live and not yet stopped. -/
def liveStep (live : List Nat) : SchedEvent → List Nat
  | SchedEvent.startTask _ ev => ev :: live
  | SchedEvent.setStop ev => live.erase ev
  | _ => live

/-- Checks that after every event of the trace at most one task is live and
unstopped. -/
def checkSingleLive (live : List Nat) : List SchedEvent → Bool
  | [] => true
  | e :: rest =>
    let live2 := liveStep live e
    decide (live2.length ≤ 1) && checkSingleLive live2 rest

/-- In the polling loop every await is of a task whose stop event was just
set, so the cooperative-cancellation semantics never truncates it. -/
theorem executedAux_pollRun (registry : List String) :
    ∀ (polls : List (Option String)) (s : SchedState) (stopped : List Nat),
      executedAux stopped (pollRun registry s polls) =
        pollRun registry s polls := by
  intro polls
  induction polls with
  | nil => intro s stopped; rfl
  | cons p rest ih =>
    intro s stopped
    cases p with
    | none => exact ih s stopped
    | some n =>
      by_cases hc : n = s.current
      · simp only [pollRun, pollStep, if_pos hc, List.nil_append]
        exact ih s stopped
      · by_cases hm : n ∈ registry
        · simp only [pollRun, pollStep, if_neg hc, if_pos hm,
            List.cons_append, List.nil_append, executedAux,
            List.mem_cons, true_or, if_true]
          rw [ih]
        · simp only [pollRun, pollStep, if_neg hc, if_neg hm,
            List.cons_append, List.nil_append, executedAux]
          simp only [List.mem_cons_self, if_pos]
          rw [ih]

/-- The single-live check over the polling loop, from any state whose only
possibly-live task is the current one. -/
theorem checkSingleLive_pollRun (registry : List String) :
    ∀ (polls : List (Option String)) (s : SchedState) (live : List Nat),
      (live = [s.taskEv] ∨ live = []) →
      checkSingleLive live (pollRun registry s polls) = true := by
  intro polls
  induction polls with
  | nil => intro s live _; rfl
  | cons p rest ih =>
    intro s live hlive
    have herase : live.erase s.taskEv = [] := by
      rcases hlive with rfl | rfl
      · exact List.erase_cons_head s.taskEv []
      · rfl
    cases p with
    | none => exact ih s live hlive
    | some n =>
      by_cases hc : n = s.current
      · simp only [pollRun, pollStep, if_pos hc, List.nil_append]
        exact ih s live hlive
      · by_cases hm : n ∈ registry
        · have h2 : checkSingleLive [s.nextEv]
              (pollRun registry
                { current := n, taskEv := s.nextEv, nextEv := s.nextEv + 1 }
                rest) = true :=
            ih { current := n, taskEv := s.nextEv, nextEv := s.nextEv + 1 }
              [s.nextEv] (Or.inl rfl)
          simp only [pollRun, pollStep, if_neg hc, if_pos hm,
            List.cons_append, List.nil_append]
          simp [checkSingleLive, liveStep, herase, h2]
        · have h2 : checkSingleLive []
              (pollRun registry { s with current := n } rest) = true :=
            ih { s with current := n } [] (Or.inr rfl)
          simp only [pollRun, pollStep, if_neg hc, if_neg hm,
            List.cons_append, List.nil_append]
          simp [checkSingleLive, liveStep, herase, h2]

/-- Every snapshot handed out by a get call is the store as it stands after a
prefix of whole operations: no snapshot reflects part of an update. -/
theorem getResults_prefix_committed (d : Option Store) (ops : List Op) :
    ∀ snap ∈ getResults d ops, ∃ n, snap = runStore d (ops.take n) := by
  induction ops generalizing d with
  | nil => simp [getResults]
  | cons op rest ih =>
    cases op with
    | update k v =>
      intro snap hs
      simp only [getResults] at hs
      obtain ⟨n, hn⟩ := ih (sharedUpdate d k v) snap hs
      exact ⟨n + 1, by simpa [runStore] using hn⟩
    | get =>
      intro snap hs
      simp only [getResults, List.mem_cons] at hs
      rcases hs with rfl | hs
      · exact ⟨0, rfl⟩
      · obtain ⟨n, hn⟩ := ih d snap hs
        exact ⟨n + 1, by simpa [runStore] using hn⟩

/-- Running additional operations extends the list of snapshots on the right
and leaves the earlier snapshots untouched. -/
theorem getResults_append (d : Option Store) (ops more : List Op) :
    getResults d (ops ++ more) =
      getResults d ops ++ getResults (runStore d ops) more := by
  induction ops generalizing d with
  | nil => rfl
  | cons op rest ih => cases op <;> simp [getResults, runStore, ih]

/-! ## Theorems for C5 and C10 -/

/-- C5: for every successful per-cycle sensor read, the published distance is
max(0, raw - DISTANCE_OFFSET); from an accumulator t in [0,255] the next
accumulator is min(255, t + TEMP_DELTA_UP) when the distance is below the hot
threshold and max(0, t - TEMP_DELTA_DOWN) otherwise, and it stays in [0,255]. -/
theorem c5_read_sensor_cycle (raw t : Int) (h0 : 0 ≤ t) (h255 : t ≤ 255) :
    (readSensorCycle raw t).1 = max 0 (raw - DISTANCE_OFFSET) ∧
    ((readSensorCycle raw t).1 < TEMPRATURE_CHANGE_THRESHOLD →
      (readSensorCycle raw t).2 = min 255 (t + TEMP_DELTA_UP)) ∧
    (¬ (readSensorCycle raw t).1 < TEMPRATURE_CHANGE_THRESHOLD →
      (readSensorCycle raw t).2 = max 0 (t - TEMP_DELTA_DOWN)) ∧
    0 ≤ (readSensorCycle raw t).2 ∧ (readSensorCycle raw t).2 ≤ 255 := by
  unfold readSensorCycle DISTANCE_OFFSET TEMPRATURE_CHANGE_THRESHOLD
    TEMP_DELTA_UP TEMP_DELTA_DOWN
  dsimp only
  split <;> refine ⟨rfl, ?_, ?_, ?_, ?_⟩ <;> simp_all <;> omega

/-- Witness for C5 at raw = 30, t = 200 (the end-to-end scenario of the spec:
distance 0 below threshold, new temperature 210). -/
theorem c5_read_sensor_cycle_witness :
    (readSensorCycle 30 200).1 = max 0 (30 - DISTANCE_OFFSET) ∧
    ((readSensorCycle 30 200).1 < TEMPRATURE_CHANGE_THRESHOLD →
      (readSensorCycle 30 200).2 = min 255 (200 + TEMP_DELTA_UP)) ∧
    (¬ (readSensorCycle 30 200).1 < TEMPRATURE_CHANGE_THRESHOLD →
      (readSensorCycle 30 200).2 = max 0 (200 - TEMP_DELTA_DOWN)) ∧
    0 ≤ (readSensorCycle 30 200).2 ∧ (readSensorCycle 30 200).2 ≤ 255 :=
  c5_read_sensor_cycle 30 200 (by decide) (by decide)

/-- C10: read_until_null_terminator returns exactly the prefix of the stream
before the first zero byte when a zero byte is present (so it returns only
after reading a zero, and its result contains no zero byte), and signals an
error (none, the IndexError on byte[0] of an empty read) when the stream is
exhausted without a zero byte. -/
theorem c10_read_until_null_terminator (s : List Nat) :
    (0 ∉ s → read_until_null_terminator s = none) ∧
    (0 ∈ s → read_until_null_terminator s = some (s.takeWhile (fun b => b ≠ 0))) ∧
    (∀ l, read_until_null_terminator s = some l → 0 ∉ l) := by
  induction s with
  | nil => exact ⟨fun _ => rfl, by simp, by simp [read_until_null_terminator]⟩
  | cons b rest ih =>
    by_cases hb : b = 0
    · subst hb
      refine ⟨fun h => absurd (List.mem_cons_self 0 rest) h, fun _ => ?_, ?_⟩
      · simp [read_until_null_terminator, List.takeWhile]
      · intro l hl
        have : l = [] := by
          simpa [read_until_null_terminator] using hl.symm
        subst this; simp
    · refine ⟨fun h => ?_, fun h => ?_, fun l hl => ?_⟩
      · have h0 : 0 ∉ rest := fun hr => h (List.mem_cons_of_mem b hr)
        simp [read_until_null_terminator, hb, ih.1 h0]
      · have h0 : 0 ∈ rest := by
          rcases List.mem_cons.mp h with h | h
          · exact absurd h.symm hb
          · exact h
        simp [read_until_null_terminator, hb, ih.2.1 h0, List.takeWhile]
      · simp only [read_until_null_terminator, if_neg hb, Option.map_eq_some'] at hl
        rcases hl with ⟨l0, hl0, rfl⟩
        intro hmem
        rcases List.mem_cons.mp hmem with h | h
        · exact hb h.symm
        · exact ih.2.2 l0 hl0 h

/-- C1 (code bug): handling the exact LOCK_ANIMATION request writes the
acknowledgment b"LOCKED\x00", but the store is NOT updated — the async call
state.update("last_locked_animation", time.time()) in lock_animation is never
awaited, so a subsequent get still returns the old value (null) instead of the
new timestamp; awaiting the very coroutine the handler creates would have set
the key to the timestamp. -/
theorem c1_lock_animation_update_never_runs :
    (handleRequest LOCK_ANIMATION (some wlanInitialStore) 1000).1 =
      some wlanInitialStore ∧
    storeGet
      ((handleRequest LOCK_ANIMATION (some wlanInitialStore) 1000).1.getD [])
      "last_locked_animation" = some Val.null ∧
    (handleRequest LOCK_ANIMATION (some wlanInitialStore) 1000).2 =
      strBytes "LOCKED" ++ [0] ∧
    storeGet
      ((PendingCoroutine.awaited ⟨"last_locked_animation", Val.int 1000⟩
          (some wlanInitialStore)).getD [])
      "last_locked_animation" = some (Val.int 1000) :=
  ⟨rfl, rfl, rfl, rfl⟩

/-- C8: a query request against the StateStore holding
animation = "rainbow" and distances = [[10, 5]] produces the UTF-8 JSON
payload with a zero terminator, and decoding the payload (json.loads of the
dumped text) yields exactly the same structure: the encode/decode round-trip
is the identity on this map. -/
theorem c8_query_roundtrip :
    (provide_animation (some snapshotC8)).2 =
      strBytes "\x7b\"animation\": \"rainbow\", \"distances\": [[10, 5]]\x7d"
        ++ [0] ∧
    jsonLoads (dumpsState (some snapshotC8)) = some (Val.obj snapshotC8) :=
  ⟨rfl, rfl⟩

/-- C2 counterexample: with the forced-animation marker naming "parabola"
and registry ["flashing_purple", "parabola"], the scheduler's executed trace
is only the start of "parabola": its stop flag is never signalled, so normal
operation is never reached and the first registered animation never starts —
contrary to the claim. -/
theorem c2_forced_counterexample :
    executed (runAnimationsTrace (some "parabola")
        ["flashing_purple", "parabola"] [some "rainbow"]) =
      [SchedEvent.startTask "parabola" 0] ∧
    SchedEvent.setStop 0 ∉ executed (runAnimationsTrace (some "parabola")
        ["flashing_purple", "parabola"] [some "rainbow"]) ∧
    SchedEvent.startTask "flashing_purple" 1 ∉
      executed (runAnimationsTrace (some "parabola")
        ["flashing_purple", "parabola"] [some "rainbow"]) := by
  refine ⟨rfl, ?_, ?_⟩ <;> decide

/-- C2 (amended): when the forced-animation marker exists, the scheduler
starts exactly the named animation and awaits its task without ever setting
its stop event; since a task exits only after its stop event is set, the
executed trace contains that single start — no selector-driven animation
starts before (or after) it. -/
theorem c2_forced_animation_runs_unstopped (name : String)
    (registry : List String) (polls : List (Option String)) :
    executed (runAnimationsTrace (some name) registry polls) =
      [SchedEvent.startTask name 0] := by
  simp [runAnimationsTrace, executed, executedAux]

/-- C3 counterexample: a published value naming an unregistered animation
("nope", not in the registry) does stop the running animation: the executed
trace contains the stop of the running task, followed by the error pattern. -/
theorem c3_unregistered_stops_counterexample :
    SchedEvent.setStop 0 ∈ executed (runAnimationsTrace none
        ["rainbow", "parabola"] [some "nope"]) ∧
    ("nope" ∉ (["rainbow", "parabola"] : List String)) ∧
    SchedEvent.errorPattern ∈ executed (runAnimationsTrace none
        ["rainbow", "parabola"] [some "nope"]) := by
  refine ⟨?_, ?_, ?_⟩ <;> decide

/-- C3 (amended): the scheduler leaves the running animation alone when the
key is absent or names the animation already running; when the key names any
different animation it stops the current task and awaits it — if the name is
registered a replacement is started, and if not, the start fails (KeyError in
the registry lookup), the error is caught and the error pattern is shown,
with no replacement task. -/
theorem c3_switch_behavior (registry : List String) (s : SchedState)
    (n : String) :
    pollStep registry s none = (s, []) ∧
    pollStep registry s (some s.current) = (s, []) ∧
    (n ≠ s.current → n ∈ registry →
      pollStep registry s (some n) =
        ({ current := n, taskEv := s.nextEv, nextEv := s.nextEv + 1 },
         [SchedEvent.setStop s.taskEv, SchedEvent.awaitTask s.taskEv,
          SchedEvent.startTask n s.nextEv])) ∧
    (n ≠ s.current → n ∉ registry →
      pollStep registry s (some n) =
        ({ s with current := n },
         [SchedEvent.setStop s.taskEv, SchedEvent.awaitTask s.taskEv,
          SchedEvent.errorPattern])) :=
  ⟨rfl, by simp [pollStep], fun hc hm => by simp [pollStep, hc, hm],
   fun hc hm => by simp [pollStep, hc, hm]⟩

/-- Witness for C3 (amended) at a concrete state and an unregistered name. -/
theorem c3_switch_behavior_witness :
    pollStep ["rainbow", "parabola"]
        { current := "rainbow", taskEv := 0, nextEv := 1 } (some "nope") =
      ({ current := "nope", taskEv := 0, nextEv := 1 },
       [SchedEvent.setStop 0, SchedEvent.awaitTask 0,
        SchedEvent.errorPattern]) :=
  (c3_switch_behavior ["rainbow", "parabola"]
      { current := "rainbow", taskEv := 0, nextEv := 1 } "nope").2.2.2
    (by decide) (by decide)

/-- C7: when the StateStore key changes from the running animation to a
different registered one, the scheduler sets the old task's stop flag, awaits
its exit, and only then creates the new task (in that order within the emitted
events); and along every executed trace, after every event at most one
animation task is live and unstopped. -/
theorem c7_single_active_animation :
    (∀ (registry : List String) (s : SchedState) (n : String),
      n ≠ s.current → n ∈ registry →
      (pollStep registry s (some n)).2 =
        [SchedEvent.setStop s.taskEv, SchedEvent.awaitTask s.taskEv,
         SchedEvent.startTask n s.nextEv]) ∧
    (∀ (marker : Option String) (registry : List String)
        (polls : List (Option String)),
      checkSingleLive []
        (executed (runAnimationsTrace marker registry polls)) = true) := by
  constructor
  · intro registry s n hc hm
    simp [pollStep, hc, hm]
  · intro marker registry polls
    cases marker with
    | none =>
      have hrun := executedAux_pollRun registry polls
        { current := registry.headD "", taskEv := 0, nextEv := 1 } []
      have hchk := checkSingleLive_pollRun registry polls
        { current := registry.headD "", taskEv := 0, nextEv := 1 }
        [0] (Or.inl rfl)
      show checkSingleLive []
        (executedAux [] (SchedEvent.startTask (registry.headD "") 0 ::
          pollRun registry
            { current := registry.headD "", taskEv := 0, nextEv := 1 }
            polls)) = true
      rw [show executedAux [] (SchedEvent.startTask (registry.headD "") 0 ::
            pollRun registry
              { current := registry.headD "", taskEv := 0, nextEv := 1 }
              polls) =
          SchedEvent.startTask (registry.headD "") 0 ::
            executedAux [] (pollRun registry
              { current := registry.headD "", taskEv := 0, nextEv := 1 }
              polls) from rfl, hrun]
      show (true && checkSingleLive [0]
        (pollRun registry
          { current := registry.headD "", taskEv := 0, nextEv := 1 }
          polls)) = true
      rw [hchk]
      rfl
    | some name =>
      simp [runAnimationsTrace, normalTrace, executed, executedAux,
        checkSingleLive, liveStep]

/-- Witness for C7 at a concrete switch from "a" to registered "b". -/
theorem c7_single_active_animation_witness :
    (pollStep ["a", "b"] { current := "a", taskEv := 0, nextEv := 1 }
        (some "b")).2 =
      [SchedEvent.setStop 0, SchedEvent.awaitTask 0,
       SchedEvent.startTask "b" 1] :=
  c7_single_active_animation.1 ["a", "b"]
    { current := "a", taskEv := 0, nextEv := 1 } "b" (by decide) (by decide)

/-- C6: a lock request is sent in exactly the cycles where some sensor's
current temperature exceeds a sample of its trailing window by more than
TEMP_RISE_THRESHOLD and more than LOCK_MESSAGE_COOLDOWN_MS has elapsed since
the last send; consequently any two sends of a run are separated by more than
LOCK_MESSAGE_COOLDOWN_MS, even when the rise condition persists. -/
theorem c6_spike_lock_cooldown :
    (∀ (s : LockState) (t : Int) (temps : List Int),
      (lockCycle s t temps).2 =
        (cycleSpike s t temps &&
          decide (LOCK_MESSAGE_COOLDOWN_MS < t - s.lastLock))) ∧
    (∀ (cycles : List (Int × List Int)) (s : LockState) (i j : Nat)
        (ci cj : Int × List Int), i < j →
      cycles[i]? = some ci → cycles[j]? = some cj →
      (lockRun s cycles)[i]? = some true →
      (lockRun s cycles)[j]? = some true →
      LOCK_MESSAGE_COOLDOWN_MS < cj.1 - ci.1) := by
  constructor
  · intro s t temps
    unfold lockCycle
    split <;> simp_all
  · intro cycles s i j ci cj hij hci hcj hsi hsj
    exact lockRun_sends_separated cycles s i j ci cj hij hci hcj hsi hsj

/-- Witness for C6: a run whose spike persists over three cycles sends at
cycle 1 and again only at cycle 2 more than the cooldown later. -/
theorem c6_spike_lock_cooldown_witness :
    LOCK_MESSAGE_COOLDOWN_MS < (20000 : Int) - 10010 :=
  c6_spike_lock_cooldown.2
    [(10000, [0]), (10010, [200]), (20000, [200])]
    (initLockState 10000) 1 2 (10010, [200]) (20000, [200])
    (by decide) rfl rfl rfl rfl

/-- C9: every animation name the selector publishes to the StateStore key
"animation" is a member of the registry, and no two consecutive publishes
carry the same name. -/
theorem c9_selector_publishes (registry : List String)
    (rounds : List (List Nat)) (h : 0 < registry.length) :
    (∀ x ∈ choosePublishes registry none rounds, x ∈ registry) ∧
    (choosePublishes registry none rounds).Chain' (fun a b => a ≠ b) := by
  obtain ⟨hmem, hchain, _⟩ := choosePublishes_spec registry h rounds none
  exact ⟨hmem, hchain⟩

/-- Witness for C9: with registry ["a", "b"] and three rotation rounds the
published sequence is ["a", "b", "a"], with no immediate repetition. -/
theorem c9_selector_publishes_witness :
    (choosePublishes ["a", "b"] none [[0], [0, 1], [1, 0]]).Chain'
      (fun a b => a ≠ b) :=
  (c9_selector_publishes ["a", "b"] [[0], [0, 1], [1, 0]] (by decide)).2

/-- C4: for every sequence of update and get operations (in any interleaving,
since each call body of SharedState has no internal suspension point), every
snapshot a get returns is the store after some prefix of fully committed
operations — never a partially applied update — and a snapshot already
returned at position i is unchanged when the run is extended by further
operations. -/
theorem c4_shared_state_atomic_snapshots (d : Option Store) (ops : List Op) :
    (∀ snap ∈ getResults d ops, ∃ n, snap = runStore d (ops.take n)) ∧
    (∀ (more : List Op) (i : Nat), i < (getResults d ops).length →
      (getResults d (ops ++ more))[i]? = (getResults d ops)[i]?) := by
  refine ⟨getResults_prefix_committed d ops, fun more i hi => ?_⟩
  rw [getResults_append, List.getElem?_append, if_pos hi]

/-- Witness for C4: a concrete run where a later update does not change the
snapshot already returned by the first get. -/
theorem c4_shared_state_atomic_snapshots_witness :
    (getResults (some [("animation", Val.null)])
        ([Op.update "x" (Val.int 1), Op.get] ++ [Op.update "x" (Val.int 2)]))[0]? =
      (getResults (some [("animation", Val.null)])
        [Op.update "x" (Val.int 1), Op.get])[0]? :=
  (c4_shared_state_atomic_snapshots (some [("animation", Val.null)])
      [Op.update "x" (Val.int 1), Op.get]).2
    [Op.update "x" (Val.int 2)] 0 (by simp [getResults])

/-- Witness for C10 at the concrete stream [104, 105, 0, 7]: the returned
bytes are the prefix before the first zero byte. -/
theorem c10_read_until_null_terminator_witness :
    read_until_null_terminator [104, 105, 0, 7] =
      some (([104, 105, 0, 7] : List Nat).takeWhile (fun b => b ≠ 0)) :=
  (c10_read_until_null_terminator [104, 105, 0, 7]).2.1 (by decide)

end PlatonicGarden
